import Mathlib

/-!
# GeoViz geophysical data-reduction pipeline: a shallow embedding

This file embeds the core logic of `src/script.js` (the GeoViz geophysical
data plotter) in Lean 4 and proves the frozen claims about it.

Modelling conventions:

* JavaScript numbers are modelled by `JSNum`: `nan`, the two infinities, and
  finite values carried as exact rationals.  IEEE-754 rounding is idealised
  away (arithmetic on finite values is exact), which is the usual shallow
  embedding of float-valued code; the special values and their comparison
  and propagation rules are kept, because the source branches on
  `Number.isFinite`, `isNaN` and comparisons with them.
* Strings are processed as `List Char`.  The regular-expression splits of the
  source are implemented directly: `split(/\r?\n/)` followed by `trim` is
  implemented as splitting on a newline character followed by trimming (a
  carriage return left at the end of a line is removed by the trim, so the
  composites agree), and `split(/[\t, ]+/)` followed by `filter(Boolean)` is
  implemented as splitting at every separator character and dropping the
  empty pieces, which yields the same list.
-/

/- Batteries marks the arithmetic on `Rat` irreducible; the definitions in
this file are meant to evaluate on concrete inputs, so reducibility is
restored locally. -/
attribute [local semireducible] Rat.add Rat.sub Rat.mul Rat.inv Rat.ofScientific

/-- A JavaScript number: NaN, an infinity, or a finite value (idealised as an
exact rational). -/
inductive JSNum where
  | nan : JSNum
  | pinf : JSNum
  | ninf : JSNum
  | num (q : ℚ) : JSNum
deriving DecidableEq, Repr

namespace JSNum

/-- `Number.isFinite x`. -/
def isFinite : JSNum → Bool
  | num _ => true
  | _ => false

/-- `isNaN x` (for values that are already numbers). -/
def isNaN : JSNum → Bool
  | nan => true
  | _ => false

/-- JavaScript negation `-x`. -/
def jneg : JSNum → JSNum
  | nan => nan
  | pinf => ninf
  | ninf => pinf
  | num q => num (-q)

/-- JavaScript addition `x + y` (NaN propagates, opposite infinities give
NaN). -/
def jadd : JSNum → JSNum → JSNum
  | nan, _ => nan
  | _, nan => nan
  | pinf, ninf => nan
  | ninf, pinf => nan
  | pinf, _ => pinf
  | _, pinf => pinf
  | ninf, _ => ninf
  | _, ninf => ninf
  | num a, num b => num (a + b)

/-- JavaScript subtraction `x - y`, as `x + (-y)`. -/
def jsub (a b : JSNum) : JSNum := jadd a (jneg b)

/-- JavaScript multiplication `x * y` (NaN propagates, `inf * 0 = NaN`). -/
def jmul : JSNum → JSNum → JSNum
  | nan, _ => nan
  | _, nan => nan
  | pinf, pinf => pinf
  | pinf, ninf => ninf
  | ninf, pinf => ninf
  | ninf, ninf => pinf
  | pinf, num b => if b = 0 then nan else if 0 < b then pinf else ninf
  | ninf, num b => if b = 0 then nan else if 0 < b then ninf else pinf
  | num a, pinf => if a = 0 then nan else if 0 < a then pinf else ninf
  | num a, ninf => if a = 0 then nan else if 0 < a then ninf else pinf
  | num a, num b => num (a * b)

/-- JavaScript division `x / y`.  The model has no negative zero, so a zero
divisor is treated as positive zero. -/
def jdiv : JSNum → JSNum → JSNum
  | nan, _ => nan
  | _, nan => nan
  | pinf, pinf => nan
  | pinf, ninf => nan
  | ninf, pinf => nan
  | ninf, ninf => nan
  | pinf, num b => if 0 ≤ b then pinf else ninf
  | ninf, num b => if 0 ≤ b then ninf else pinf
  | num _, pinf => num 0
  | num _, ninf => num 0
  | num a, num b =>
      if b = 0 then (if a = 0 then nan else if 0 < a then pinf else ninf)
      else num (a / b)

/-- JavaScript `Math.abs x`. -/
def jabs : JSNum → JSNum
  | nan => nan
  | pinf => pinf
  | ninf => pinf
  | num q => num |q|

/-- IEEE strict-less-than `x < y`: false whenever either side is NaN. -/
def jltB : JSNum → JSNum → Bool
  | nan, _ => false
  | _, nan => false
  | num a, num b => decide (a < b)
  | pinf, _ => false
  | ninf, ninf => false
  | ninf, _ => true
  | num _, pinf => true
  | num _, ninf => false

/-- IEEE less-or-equal `x <= y`: false whenever either side is NaN. -/
def jleB : JSNum → JSNum → Bool
  | nan, _ => false
  | _, nan => false
  | num a, num b => decide (a ≤ b)
  | ninf, _ => true
  | _, pinf => true
  | pinf, _ => false
  | num _, ninf => false

/-- IEEE greater-than `x > y`, written `jltB y x` exactly as the hardware
defines it. -/
def jgtB (a b : JSNum) : Bool := jltB b a

/-- JavaScript truthiness test for `!x` on a number: `0` and `NaN` are
falsy, every other number (including the infinities) is truthy. -/
def jsFalsy (x : JSNum) : Bool := x = num 0 || x = nan

/-- The rational value of a finite `JSNum`; only read behind an
`isFinite` guard. -/
def toQ : JSNum → ℚ
  | num q => q
  | _ => 0

end JSNum

/-- The exact rational value of the IEEE-754 double `Math.PI`
(`884279719003555 * 2 ^ (-48)`). -/
def mathPI : ℚ := 884279719003555 / 281474976710656

/-! ## Character and string utilities -/

/-- The JavaScript white-space characters relevant to `trim` and to leading
white space in `parseFloat` (the ASCII ones; exotic Unicode spaces are not
modelled). -/
def jsWhite (c : Char) : Bool :=
  c = ' ' || c = '\t' || c = '\r' || c = '\n' || c = '\x0b' || c = '\x0c'

/-- `s.trim()`: drop white space from both ends. -/
def jsTrimL (l : List Char) : List Char :=
  ((l.dropWhile jsWhite).reverse.dropWhile jsWhite).reverse

/-- The field-separator characters of the split `/[\t, ]+/`. -/
def isSepChar (c : Char) : Bool := c = '\t' || c = ',' || c = ' '

/-- Split a character list at every character satisfying `p`, keeping
empty pieces (the callers drop them with `filter(Boolean)`). -/
def splitWhen (p : Char → Bool) : List Char → List (List Char)
  | [] => [[]]
  | c :: cs =>
      if p c then [] :: splitWhen p cs
      else
        match splitWhen p cs with
        | [] => [[c]]
        | piece :: rest => (c :: piece) :: rest

/-- Does `l` start with `pat`? -/
def startsWithCh : List Char → List Char → Bool
  | [], _ => true
  | _ :: _, [] => false
  | p :: ps, c :: cs => p = c && startsWithCh ps cs

/-- Does `l` contain `pat` as a contiguous substring?  Used for the
case-insensitive header tests `/station|inphase/i` and
`/electrode|pos|station/i` after lower-casing. -/
def containsSub (pat : List Char) : List Char → Bool
  | [] => startsWithCh pat []
  | c :: cs => startsWithCh pat (c :: cs) || containsSub pat cs

/-- Lower-case every character (ASCII, which is what the `/i` flag needs on
these patterns). -/
def toLowerL (l : List Char) : List Char := l.map Char.toLower

/-! ## `parseFloat` -/

/-- The numeric value of a digit string. -/
def digitsVal (ds : List Char) : ℕ :=
  ds.foldl (fun n c => 10 * n + (c.toNat - 48)) 0

/-- Split off a maximal run of leading decimal digits. -/
def takeDigits (l : List Char) : List Char × List Char :=
  (l.takeWhile Char.isDigit, l.dropWhile Char.isDigit)

/-- Parse an optional exponent part `e`/`E` with optional sign; an exponent
with no digits is not part of the accepted prefix, so it contributes the
factor `10 ^ 0` exactly as `parseFloat` backtracks over it. -/
def parseExpPart (l : List Char) : ℤ :=
  match l with
  | 'e' :: rest | 'E' :: rest =>
      match rest with
      | '+' :: ds => (if (takeDigits ds).1 = [] then 0 else (digitsVal (takeDigits ds).1 : ℤ))
      | '-' :: ds => (if (takeDigits ds).1 = [] then 0 else -(digitsVal (takeDigits ds).1 : ℤ))
      | ds => (if (takeDigits ds).1 = [] then 0 else (digitsVal (takeDigits ds).1 : ℤ))
  | _ => 0

/-- ECMAScript `parseFloat`: skip leading white space, take an optional
sign, then the longest prefix that is a `StrDecimalLiteral`
(`Infinity`, or digits with optional fraction and exponent); `NaN` when no
prefix parses.  Finite values are exact rationals (no rounding to binary64,
consistent with the idealisation above). -/
def jsParseFloat (l : List Char) : JSNum :=
  let l1 := l.dropWhile jsWhite
  let sgn : Bool × List Char :=
    match l1 with
    | '-' :: r => (true, r)
    | '+' :: r => (false, r)
    | _ => (false, l1)
  let neg := sgn.1
  let l2 := sgn.2
  if startsWithCh ['I','n','f','i','n','i','t','y'] l2 then
    (if neg then JSNum.ninf else JSNum.pinf)
  else
    let ip := (takeDigits l2).1
    let r1 := (takeDigits l2).2
    let fr : List Char × List Char :=
      match r1 with
      | '.' :: r => takeDigits r
      | _ => ([], r1)
    let fp := fr.1
    let r2 := fr.2
    if ip = [] ∧ fp = [] then JSNum.nan
    else
      let mant : ℚ := (digitsVal ip : ℚ) + (digitsVal fp : ℚ) / (10 : ℚ) ^ fp.length
      let v : ℚ := mant * (10 : ℚ) ^ parseExpPart r2
      JSNum.num (if neg then -v else v)

/-! ## Record types and the per-line loop -/

/-- A validated VLF record (`parseVLFData` only accepts rows whose three
fields are finite, so the fields are plain rationals). -/
structure VLFRecord where
  station : ℚ
  inPhase : ℚ
  quadrature : ℚ
deriving DecidableEq, Repr

/-- The four electrode positions `[p1, p2, p3, p4]` destructured from the
row.  The parser always slices exactly four fields, so the model uses a
quadruple. -/
structure Pos4 where
  p1 : JSNum
  p2 : JSNum
  p3 : JSNum
  p4 : JSNum
deriving DecidableEq, Repr

/-- A resistivity record as pushed by `parseResistivityData`.  Fields the
source never validates (the raw positions, the resistance when the apparent
resistivity was supplied, hence also spacing and depth) can be non-finite,
so they keep the full `JSNum` type. -/
structure ResistivityRecord where
  arrayType : String
  positions : Pos4
  spacing : JSNum
  midpoint : JSNum
  depth : JSNum
  kFactor : JSNum
  resistance : JSNum
  apparentResistivity : JSNum
  isCalculated : Bool
deriving DecidableEq, Repr

/-- The ambient interface state the script reads through
`document.getElementById`: the selected array type (`arrayType` selector)
and the Karous-Hjelt filter toggle (`karousHjeltToggle` checkbox).  The
specification calls this the process-wide state owned by the UI
collaborator. -/
structure UIState where
  arrayType : String
  karousHjeltChecked : Bool
deriving DecidableEq, Repr

/-- The `for (const line of lines) ... data.push(...)` loop shape shared by
both parsers and the filter: fold over the rows, appending the produced
record when the body does not `continue`. -/
def pushLoop (f : α → Option β) (l : List α) : List β :=
  l.foldl (fun acc a => match f a with | some b => acc ++ [b] | none => acc) []

/-! ## Geometric-Factor Calculator (`calculateGeometricFactor`) -/

/-- `calculateGeometricFactor(arrayType, positions)` from `src/script.js`
lines 148-183.  The guard `if (!p1 || !p2 || !p3 || !p4) return null`
tests JavaScript truthiness, so the value `0` (and `NaN`) is rejected as
though the position were missing; the infinities are truthy and pass.
The factor `Math.PI` is the exact rational `mathPI`. -/
def calculateGeometricFactor (arrayType : String) (positions : Pos4) : Option JSNum :=
  if JSNum.jsFalsy positions.p1 || JSNum.jsFalsy positions.p2 ||
      JSNum.jsFalsy positions.p3 || JSNum.jsFalsy positions.p4 then none
  else
    match arrayType with
    | "wenner" =>
        let a := JSNum.jabs (JSNum.jsub positions.p2 positions.p1)
        if JSNum.jgtB a (JSNum.num 0) then
          some (JSNum.jmul (JSNum.jmul (JSNum.num 2) (JSNum.num mathPI)) a)
        else none
    | "schlumberger" =>
        let L := JSNum.jdiv (JSNum.jabs (JSNum.jsub positions.p4 positions.p1)) (JSNum.num 2)
        let a := JSNum.jdiv (JSNum.jabs (JSNum.jsub positions.p3 positions.p2)) (JSNum.num 2)
        if JSNum.jgtB a (JSNum.num 0) && JSNum.jgtB L a then
          some (JSNum.jdiv
            (JSNum.jmul (JSNum.num mathPI) (JSNum.jsub (JSNum.jmul L L) (JSNum.jmul a a))) a)
        else none
    | "dipole" =>
        let a := JSNum.jabs (JSNum.jsub positions.p2 positions.p1)
        let rsep := JSNum.jabs (JSNum.jsub positions.p3 positions.p2)
        -- n_factor is null when a is not positive; null > 0 is false, so the
        -- two source branches collapse to this shape.
        if JSNum.jgtB a (JSNum.num 0) then
          let n := JSNum.jdiv rsep a
          if JSNum.jgtB n (JSNum.num 0) then
            some (JSNum.jmul (JSNum.jmul (JSNum.jmul (JSNum.jmul (JSNum.num mathPI) n)
              (JSNum.jadd n (JSNum.num 1))) (JSNum.jadd n (JSNum.num 2))) a)
          else
            some (JSNum.jmul (JSNum.jmul (JSNum.num 2) (JSNum.num mathPI)) a)
        else none
    | _ => none

/-! ## Karous-Hjelt Filter (`calculateKarousHjelt`) -/

/-- One emitted point of the Karous-Hjelt filter. -/
structure KHPoint where
  x : ℚ
  y : ℚ
deriving DecidableEq, Repr

/-- The body of the adjacent-pair loop of `calculateKarousHjelt`
(`src/script.js` lines 192-204): skip the pair when the station difference
is zero, otherwise emit the midpoint and the finite difference. -/
def khPair (pq : VLFRecord × VLFRecord) : Option KHPoint :=
  let dInPhase := pq.2.inPhase - pq.1.inPhase
  let dStation := pq.2.station - pq.1.station
  if dStation ≠ 0 then
    some { x := (pq.1.station + pq.2.station) / 2, y := dInPhase / dStation }
  else none

/-- `calculateKarousHjelt(vlfData)` from `src/script.js` lines 188-206: an
early empty return below two records, then the push loop over the adjacent
pairs `(vlfData[i], vlfData[i+1])`. -/
def calculateKarousHjelt (vlfData : List VLFRecord) : List KHPoint :=
  if vlfData.length < 2 then []
  else pushLoop khPair (vlfData.zip vlfData.tail)

/-! ## Record Builders (`parseVLFData`, `parseResistivityData`) -/

/-- The line discipline of `parseVLFData`:
`text.split(/\r?\n/).map(l => l.trim()).filter(Boolean)`. -/
def vlfLines (text : String) : List (List Char) :=
  ((splitWhen (· = '\n') text.data).map jsTrimL).filter (· ≠ [])

/-- The body of the `parseVLFData` row loop (`src/script.js` lines
215-229): drop header lines matching `/station|inphase/i`, split on
`/[\t, ]+/` (trimming each piece and dropping empty ones), require at
least three fields, and accept the record only when all three parse to
finite numbers. -/
def parseVLFLine (l : List Char) : Option VLFRecord :=
  if containsSub "station".data (toLowerL l) || containsSub "inphase".data (toLowerL l) then
    none
  else
    match ((splitWhen isSepChar l).map jsTrimL).filter (· ≠ []) with
    | s :: i :: q :: _ =>
        let station := jsParseFloat s
        let inPhase := jsParseFloat i
        let quadrature := jsParseFloat q
        if station.isFinite && inPhase.isFinite && quadrature.isFinite then
          some { station := station.toQ, inPhase := inPhase.toQ, quadrature := quadrature.toQ }
        else none
    | _ => none

/-- `parseVLFData(text)` from `src/script.js` lines 211-231. -/
def parseVLFData (text : String) : List VLFRecord :=
  pushLoop parseVLFLine (vlfLines text)

/-- The Apparent-Resistivity Resolver (`src/script.js` lines 264-272,
step 2 of the resistivity row loop): keep a finite supplied value with
`isCalculated = false`, otherwise derive `K * R` when both are finite,
otherwise fail (the row is skipped). -/
def resolveRho (kFactor resistance suppliedRho : JSNum) : Option (JSNum × Bool) :=
  if !suppliedRho.isFinite then
    if kFactor.isFinite && resistance.isFinite then
      some (JSNum.jmul kFactor resistance, true)
    else none
  else some (suppliedRho, false)

/-- The line discipline of `parseResistivityData`:
`text.trim().split(/\r?\n/).map(l => l.trim()).filter(Boolean)`. -/
def resLines (text : String) : List (List Char) :=
  ((splitWhen (· = '\n') (jsTrimL text.data)).map jsTrimL).filter (· ≠ [])

/-- The body of the `parseResistivityData` row loop (`src/script.js` lines
239-290).  In order: the `/electrode|pos|station/i` header test, the
`/[\t, ]+/` split with `filter(Boolean)` (no per-piece trim here, unlike
the VLF parser), the six-column requirement, `parseFloat` of the four
positions, of `K`, of `R` and of the optional seventh column
(`parseFloat(undefined)` is `NaN` when the column is absent), the
`positions.some(isNaN)` skip, the positive-spacing skip, step 1 (resolve
`K`, recomputing it through `calculateGeometricFactor` when the supplied
one is non-finite or zero), step 2 (`resolveRho`), and the final push
guarded by finiteness of midpoint and apparent resistivity. -/
def parseResLine (arrayType : String) (l : List Char) : Option ResistivityRecord :=
  if containsSub "electrode".data (toLowerL l) || containsSub "pos".data (toLowerL l) ||
      containsSub "station".data (toLowerL l) then none
  else
    match (splitWhen isSepChar l).filter (· ≠ []) with
    | c1 :: c2 :: c3 :: c4 :: c5 :: c6 :: rest =>
        let positions : Pos4 :=
          { p1 := jsParseFloat c1, p2 := jsParseFloat c2
            p3 := jsParseFloat c3, p4 := jsParseFloat c4 }
        let kFactor := jsParseFloat c5
        let resistance := jsParseFloat c6
        let suppliedRho := match rest with
          | c7 :: _ => jsParseFloat c7
          | [] => JSNum.nan
        if positions.p1.isNaN || positions.p2.isNaN ||
            positions.p3.isNaN || positions.p4.isNaN then none
        else
          let spacingA := JSNum.jabs (JSNum.jsub positions.p2 positions.p1)
          if JSNum.jleB spacingA (JSNum.num 0) then none
          else
            let kResolved : Option JSNum :=
              if !kFactor.isFinite || kFactor = JSNum.num 0 then
                match calculateGeometricFactor arrayType positions with
                | some k2 =>
                    if !k2.isFinite || k2 = JSNum.num 0 then none else some k2
                | none => none
              else some kFactor
            match kResolved with
            | none => none
            | some k =>
                match resolveRho k resistance suppliedRho with
                | none => none
                | some (rho, isCalc) =>
                    let midpoint :=
                      JSNum.jdiv (JSNum.jadd positions.p1 positions.p4) (JSNum.num 2)
                    let depth := JSNum.jmul spacingA (JSNum.num (519 / 1000))
                    if midpoint.isFinite && rho.isFinite then
                      some { arrayType := arrayType, positions := positions
                             spacing := spacingA, midpoint := midpoint, depth := depth
                             kFactor := k, resistance := resistance
                             apparentResistivity := rho, isCalculated := isCalc }
                    else none
    | _ => none

/-- `parseResistivityData(text)` from `src/script.js` lines 234-292.  The
source reads `document.getElementById('arrayType').value` inside the
function; that ambient read is modelled by the `UIState` argument. -/
def parseResistivityData (ui : UIState) (text : String) : List ResistivityRecord :=
  pushLoop (parseResLine ui.arrayType) (resLines text)

/-! ## Series Grouper (`groupBySpacing`, the data part of
`plotResistivityData`, `src/script.js` lines 478-498) -/

/-- The string key `d.spacing.toFixed(2)` used to bucket records, kept in
symbolic form: `fin n` is the string printing `n / 100` with two decimals
(`"10.00"` is `fin 1000`), `negZero` is the string `"-0.00"` (distinct from
`"0.00"` by string equality), and the special values print as themselves. -/
inductive SpacKey where
  | fin (n : ℤ) : SpacKey
  | negZero : SpacKey
  | pinf : SpacKey
  | ninf : SpacKey
  | nank : SpacKey
deriving DecidableEq, Repr

/-- `x.toFixed(2)` as a `SpacKey`.  ECMAScript picks the integer `n`
minimising the distance of `n / 100` to `|x|` (larger `n` on ties, hence
the floor of `100 * |x| + 1/2`) and prepends the sign. -/
def toFixed2Key (x : JSNum) : SpacKey :=
  match x with
  | JSNum.nan => SpacKey.nank
  | JSNum.pinf => SpacKey.pinf
  | JSNum.ninf => SpacKey.ninf
  | JSNum.num q =>
      if 0 ≤ q then SpacKey.fin ⌊q * 100 + 1/2⌋
      else if ⌊(-q) * 100 + 1/2⌋ = 0 then SpacKey.negZero
      else SpacKey.fin (-⌊(-q) * 100 + 1/2⌋)

/-- `Number(key)` on the key string. -/
def keyNumber (k : SpacKey) : JSNum :=
  match k with
  | SpacKey.fin n => JSNum.num ((n : ℚ) / 100)
  | SpacKey.negZero => JSNum.num 0
  | SpacKey.pinf => JSNum.pinf
  | SpacKey.ninf => JSNum.ninf
  | SpacKey.nank => JSNum.nan

/-- Append a record to the bucket of its key, creating the bucket at the
end when absent — exactly the effect of
`if (!groupedData[key]) groupedData[key] = []; groupedData[key].push(d)`
on a plain object whose keys (strings such as `"10.00"`) are enumerated in
insertion order. -/
def groupAppend (k : SpacKey) (d : ResistivityRecord) :
    List (SpacKey × List ResistivityRecord) → List (SpacKey × List ResistivityRecord)
  | [] => [(k, [d])]
  | (k', l) :: rest =>
      if k' = k then (k', l ++ [d]) :: rest
      else (k', l) :: groupAppend k d rest

/-- The `data.forEach` grouping pass building `groupedData`. -/
def buildGroups (data : List ResistivityRecord) :
    List (SpacKey × List ResistivityRecord) :=
  data.foldl (fun m d => groupAppend (toFixed2Key d.spacing) d m) []

/-- `groupedData[k]` with the `undefined` miss rendered as the empty
bucket.  (On a miss the source would throw when sorting `undefined`; under
the positive-spacing invariant of the records the refetched key always
hits, so the default is never consulted.) -/
def groupLookup (k : SpacKey) :
    List (SpacKey × List ResistivityRecord) → List ResistivityRecord
  | [] => []
  | (k', l) :: rest => if k' = k then l else groupLookup k rest

/-- Rank of a `JSNum` in the IEEE order, with NaN pushed to an artificial
top tier: the comparator semantics of `sort((a, b) => a - b)` is only
defined when the comparator is consistent, which on numbers means no NaN;
on NaN-free inputs this order agrees with IEEE comparison. -/
def jsNumOrd (x : JSNum) : Lex (ℤ × ℚ) :=
  match x with
  | JSNum.ninf => toLex (-1, 0)
  | JSNum.num q => toLex (0, q)
  | JSNum.pinf => toLex (1, 0)
  | JSNum.nan => toLex (2, 0)

/-- The ascending order used by `Object.keys(...).map(Number).sort((a, b) => a - b)`. -/
def numLe (a b : JSNum) : Prop := jsNumOrd a ≤ jsNumOrd b

instance : DecidableRel numLe :=
  fun a b => inferInstanceAs (Decidable (jsNumOrd a ≤ jsNumOrd b))

instance : IsTotal JSNum numLe := ⟨fun a b => le_total (jsNumOrd a) (jsNumOrd b)⟩

instance : IsTrans JSNum numLe := ⟨fun _ _ _ h h' => le_trans h h'⟩

/-- The ascending order used by `points.sort((a, b) => a.midpoint - b.midpoint)`. -/
def midLe (p q : ResistivityRecord) : Prop := jsNumOrd p.midpoint ≤ jsNumOrd q.midpoint

instance : DecidableRel midLe :=
  fun p q => inferInstanceAs (Decidable (jsNumOrd p.midpoint ≤ jsNumOrd q.midpoint))

instance : IsTotal ResistivityRecord midLe :=
  ⟨fun p q => le_total (jsNumOrd p.midpoint) (jsNumOrd q.midpoint)⟩

instance : IsTrans ResistivityRecord midLe := ⟨fun _ _ _ h h' => le_trans h h'⟩

/-- One emitted series group: the numeric spacing of the group (the label
`a = ...m`), the midpoint-sorted bucket, and its partition into measured
and calculated plot points `(x, y) = (midpoint, apparentResistivity)`. -/
structure SeriesGroup where
  spacing : JSNum
  points : List ResistivityRecord
  measured : List (JSNum × JSNum)
  calculated : List (JSNum × JSNum)
deriving DecidableEq, Repr

/-- The Series Grouper: group by the two-decimal key, enumerate the keys as
numbers sorted ascending (`Array.prototype.sort` is stable and insertion
sort is stable, so on a consistent comparator they coincide), refetch each
bucket through `toFixed(2)` of the sorted number, sort it by midpoint, and
partition into measured and calculated points. -/
def groupBySpacing (data : List ResistivityRecord) : List SeriesGroup :=
  let grouped := buildGroups data
  let sortedNums := List.insertionSort numLe (grouped.map (fun kv => keyNumber kv.1))
  sortedNums.map (fun v =>
    let pts := List.insertionSort midLe (groupLookup (toFixed2Key v) grouped)
    { spacing := v
      points := pts
      measured := (pts.filter (fun p => !p.isCalculated)).map
        (fun p => (p.midpoint, p.apparentResistivity))
      calculated := (pts.filter (fun p => p.isCalculated)).map
        (fun p => (p.midpoint, p.apparentResistivity)) })

/-- The keys reachable from strictly positive spacings: a nonnegative
two-decimal value or the infinity key. -/
def goodKey (k : SpacKey) : Prop :=
  (∃ n : ℤ, 0 ≤ n ∧ k = SpacKey.fin n) ∨ k = SpacKey.pinf

/-! ## Concrete evaluations checking the embedding on sample data -/

example : jsParseFloat "45.2".data = JSNum.num (226 / 5) := by decide

example : jsParseFloat "-12.5".data = JSNum.num (-(25 / 2)) := by decide

example : jsParseFloat "1e3".data = JSNum.num 1000 := by decide

example : jsParseFloat "5.e3".data = JSNum.num 5000 := by decide

example : jsParseFloat "abc".data = JSNum.nan := by decide

example : jsParseFloat "Infinity".data = JSNum.pinf := by decide

example : jsParseFloat "1e-2".data = JSNum.num (1 / 100) := by decide

example : jsParseFloat "12abc".data = JSNum.num 12 := by decide

example : jsParseFloat ".".data = JSNum.nan := by decide

example : parseVLFData "0\t45.2\t-12.5\n10\t52.3\t-15.8" =
    [{ station := 0, inPhase := 226/5, quadrature := -(25/2) },
     { station := 10, inPhase := 523/10, quadrature := -(79/5) }] := by decide

example : parseVLFData "Station\tInPhase\tQuadrature\n0\t45.2\t-12.5" =
    [{ station := 0, inPhase := 226/5, quadrature := -(25/2) }] := by decide

example : calculateGeometricFactor "wenner"
    { p1 := JSNum.num 0, p2 := JSNum.num 10, p3 := JSNum.num 20, p4 := JSNum.num 30 } =
    none := by decide

example : calculateGeometricFactor "wenner"
    { p1 := JSNum.num 10, p2 := JSNum.num 20, p3 := JSNum.num 30, p4 := JSNum.num 40 } =
    some (JSNum.num (20 * mathPI)) := by decide

example : parseResistivityData { arrayType := "wenner", karousHjeltChecked := false }
    "1 2 3 4 5 6" =
    [{ arrayType := "wenner"
       positions := { p1 := JSNum.num 1, p2 := JSNum.num 2, p3 := JSNum.num 3, p4 := JSNum.num 4 }
       spacing := JSNum.num 1, midpoint := JSNum.num (5/2), depth := JSNum.num (519/1000)
       kFactor := JSNum.num 5, resistance := JSNum.num 6
       apparentResistivity := JSNum.num 30, isCalculated := true }] := by decide

example : toFixed2Key (JSNum.num (10001/1000)) = SpacKey.fin 1000 := by decide

example : toFixed2Key (JSNum.num (10004/1000)) = SpacKey.fin 1000 := by decide

example : toFixed2Key (JSNum.num 10) = SpacKey.fin 1000 := by decide

example : keyNumber (SpacKey.fin 1000) = JSNum.num 10 := by decide

/-! ## Helper lemmas -/

/-- The push loop is `filterMap`: one output per accepted row, in row
order. -/
theorem pushLoop_eq_filterMap (f : α → Option β) (l : List α) :
    pushLoop f l = l.filterMap f := by
  suffices h : ∀ acc : List β,
      l.foldl (fun acc a => match f a with | some b => acc ++ [b] | none => acc) acc =
        acc ++ l.filterMap f by
    simpa [pushLoop] using h []
  induction l with
  | nil => intro acc; simp
  | cons a l ih =>
      intro acc
      cases h : f a <;> simp [List.filterMap_cons, h, ih, List.append_assoc]

/-- `zip` with the tail loses exactly one element on nonempty lists. -/
theorem zip_tail_length (l : List VLFRecord) :
    (l.zip l.tail).length = l.length - 1 := by
  cases l with
  | nil => simp
  | cons a t => simp [List.length_zip]

/-- Inverting a successful `resolveRho`: a calculated flag means the value
is the product `K * R`. -/
theorem resolveRho_some_calc {K R s rho : JSNum} {b : Bool}
    (h : resolveRho K R s = some (rho, b)) :
    b = true → rho = JSNum.jmul K R := by
  unfold resolveRho at h
  split at h
  · split at h
    · intro _; cases h; rfl
    · cases h
  · intro hb; cases h; cases hb

/-- Inverting a successful row of the resistivity parser: every fact the
invariants claim, read off the guards the row passed. -/
theorem parseResLine_some_facts (a : String) (l : List Char) (r : ResistivityRecord)
    (h : parseResLine a l = some r) :
    r.arrayType = a
    ∧ r.spacing = JSNum.jabs (JSNum.jsub r.positions.p2 r.positions.p1)
    ∧ JSNum.jleB r.spacing (JSNum.num 0) = false
    ∧ r.positions.p1.isNaN = false ∧ r.positions.p2.isNaN = false
    ∧ r.positions.p3.isNaN = false ∧ r.positions.p4.isNaN = false
    ∧ r.midpoint = JSNum.jdiv (JSNum.jadd r.positions.p1 r.positions.p4) (JSNum.num 2)
    ∧ r.depth = JSNum.jmul r.spacing (JSNum.num (519 / 1000))
    ∧ r.midpoint.isFinite = true
    ∧ r.apparentResistivity.isFinite = true
    ∧ r.kFactor.isFinite = true
    ∧ r.kFactor ≠ JSNum.num 0
    ∧ (r.isCalculated = true → r.apparentResistivity = JSNum.jmul r.kFactor r.resistance) := by
  unfold parseResLine at h
  split at h
  · cases h
  · split at h
    · rename_i parts p0 p1 p2 p3 p4 p5 prest heq
      simp only at h
      split at h
      · cases h
      · split at h
        · cases h
        · rename_i hnan hsp
          split at h
          · cases h
          · rename_i k hk
            split at h
            · cases h
            · rename_i rho isCalc hrho
              split at h
              · rename_i hfin
                have hcalc := resolveRho_some_calc hrho
                have hkf : k.isFinite = true ∧ k ≠ JSNum.num 0 := by
                  split at hk
                  · split at hk
                    · split at hk
                      · cases hk
                      · rename_i hgood
                        cases hk
                        simpa [not_or] using hgood
                    · cases hk
                  · rename_i hgood
                    cases hk
                    simpa [not_or] using hgood
                simp only [Bool.or_eq_true, not_or, Bool.not_eq_true] at hnan
                simp only [Bool.not_eq_true] at hsp
                cases h
                refine ⟨rfl, rfl, hsp, hnan.1.1.1, hnan.1.1.2, hnan.1.2, hnan.2,
                  rfl, rfl, ?_, ?_, hkf.1, hkf.2, hcalc⟩
                · exact ((Bool.and_eq_true _ _).mp hfin).1
                · exact ((Bool.and_eq_true _ _).mp hfin).2
              · cases h
    · cases h

/-- A stored spacing passed both the non-NaN-positions guard and the
`spacing <= 0` skip, and the record's midpoint came out finite; together
these force `0 < spacing` in the IEEE order (the only remaining NaN route,
two same-signed infinite `p1, p2`, is cut off because an infinite `p1`
makes the midpoint non-finite). -/
theorem spacing_strict_pos (r : ResistivityRecord)
    (hspEq : r.spacing = JSNum.jabs (JSNum.jsub r.positions.p2 r.positions.p1))
    (hsp : JSNum.jleB r.spacing (JSNum.num 0) = false)
    (h1 : r.positions.p1.isNaN = false) (h2 : r.positions.p2.isNaN = false)
    (h4 : r.positions.p4.isNaN = false)
    (hmidEq : r.midpoint = JSNum.jdiv (JSNum.jadd r.positions.p1 r.positions.p4) (JSNum.num 2))
    (hmid : r.midpoint.isFinite = true) :
    JSNum.jltB (JSNum.num 0) r.spacing = true := by
  obtain ⟨q1, hq1⟩ : ∃ q, r.positions.p1 = JSNum.num q := by
    cases hp1 : r.positions.p1 with
    | nan => rw [hp1] at h1; cases h1
    | num q => exact ⟨q, rfl⟩
    | pinf =>
        rw [hmidEq, hp1] at hmid
        cases hp4 : r.positions.p4 <;> rw [hp4] at hmid h4 <;>
          simp [JSNum.jadd, JSNum.jdiv, JSNum.isFinite, JSNum.isNaN] at hmid h4
    | ninf =>
        rw [hmidEq, hp1] at hmid
        cases hp4 : r.positions.p4 <;> rw [hp4] at hmid h4 <;>
          simp [JSNum.jadd, JSNum.jdiv, JSNum.isFinite, JSNum.isNaN] at hmid h4
  cases hp2 : r.positions.p2 with
  | nan => rw [hp2] at h2; cases h2
  | pinf =>
      rw [hspEq, hp2, hq1]
      simp [JSNum.jsub, JSNum.jneg, JSNum.jadd, JSNum.jabs, JSNum.jltB]
  | ninf =>
      rw [hspEq, hp2, hq1]
      simp [JSNum.jsub, JSNum.jneg, JSNum.jadd, JSNum.jabs, JSNum.jltB]
  | num q2 =>
      rw [hspEq, hp2, hq1] at hsp ⊢
      simp [JSNum.jsub, JSNum.jneg, JSNum.jadd, JSNum.jabs, JSNum.jleB, JSNum.jltB] at hsp ⊢
      exact hsp

/-- `khPair` rejects exactly the coincident-station pairs. -/
theorem khPair_none_iff (pq : VLFRecord × VLFRecord) :
    khPair pq = none ↔ pq.2.station - pq.1.station = 0 := by
  by_cases hd : pq.2.station - pq.1.station = 0 <;> simp [khPair, hd]

/-- Accepted pairs and skipped pairs add back up to all adjacent pairs. -/
theorem filterMap_khPair_length (pairs : List (VLFRecord × VLFRecord)) :
    (pairs.filterMap khPair).length +
      pairs.countP (fun pq => decide (pq.2.station - pq.1.station = 0)) = pairs.length := by
  induction pairs with
  | nil => simp
  | cons pq rest ih =>
      by_cases hd : pq.2.station - pq.1.station = 0
      · have hn : khPair pq = none := (khPair_none_iff pq).mpr hd
        simp [List.filterMap_cons, hn, List.countP_cons, hd]
        omega
      · have hs : khPair pq = some
            { x := (pq.1.station + pq.2.station) / 2,
              y := (pq.2.inPhase - pq.1.inPhase) / (pq.2.station - pq.1.station) } := by
          simp [khPair, hd]
        simp [List.filterMap_cons, hs, List.countP_cons, hd]
        omega

/-- `khPair` reads only the station and in-phase components. -/
theorem filterMap_khPair_congr (l1 : List VLFRecord) : ∀ l2 : List VLFRecord,
    l1.map (fun r => (r.station, r.inPhase)) = l2.map (fun r => (r.station, r.inPhase)) →
    (l1.zip l1.tail).filterMap khPair = (l2.zip l2.tail).filterMap khPair := by
  induction l1 with
  | nil =>
      intro l2 h
      cases l2 with
      | nil => rfl
      | cons a2 t2 => simp at h
  | cons a t ih =>
      intro l2 h
      cases l2 with
      | nil => simp at h
      | cons a2 t2 =>
          simp only [List.map_cons, List.cons.injEq, Prod.mk.injEq] at h
          obtain ⟨⟨hs, hi⟩, ht⟩ := h
          cases t with
          | nil =>
              cases t2 with
              | nil => rfl
              | cons => simp at ht
          | cons b s =>
              cases t2 with
              | nil => simp at ht
              | cons b2 s2 =>
                  have hb : b.station = b2.station ∧ b.inPhase = b2.inPhase := by
                    simp only [List.map_cons, List.cons.injEq, Prod.mk.injEq] at ht
                    exact ⟨ht.1.1, ht.1.2⟩
                  have hpair : khPair (a, b) = khPair (a2, b2) := by
                    unfold khPair
                    rw [hs, hi, hb.1, hb.2]
                  have hrest := ih (b2 :: s2) ht
                  simp only [List.tail_cons] at hrest
                  simp only [List.zip_cons_cons, List.tail_cons, List.filterMap_cons, hpair]
                  cases khPair (a2, b2) <;> simp [hrest]

/-- C5: `calculateKarousHjelt` walks the adjacent pairs in input order,
skipping exactly the zero-difference pairs and emitting the midpoint and
finite-difference point for every other pair, so the output length is
`N - 1` minus the number of coincident-station pairs. -/
theorem kh_adjacent_pair_semantics (l : List VLFRecord) :
    calculateKarousHjelt l = (l.zip l.tail).filterMap khPair
    ∧ (∀ p q : VLFRecord, q.station - p.station = 0 → khPair (p, q) = none)
    ∧ (∀ p q : VLFRecord, q.station - p.station ≠ 0 →
        khPair (p, q) = some { x := (p.station + q.station) / 2,
                               y := (q.inPhase - p.inPhase) / (q.station - p.station) })
    ∧ (2 ≤ l.length →
        (calculateKarousHjelt l).length =
          (l.length - 1) -
            (l.zip l.tail).countP (fun pq => decide (pq.2.station - pq.1.station = 0))) := by
  have hmain : calculateKarousHjelt l = (l.zip l.tail).filterMap khPair := by
    unfold calculateKarousHjelt
    split
    · rename_i hlen
      rcases l with _ | ⟨a, _ | ⟨b, t⟩⟩
      · rfl
      · rfl
      · simp only [List.length_cons] at hlen
        omega
    · exact pushLoop_eq_filterMap _ _
  refine ⟨hmain, ?_, ?_, ?_⟩
  · intro p q hd; simp [khPair, hd]
  · intro p q hd; simp [khPair, hd]
  · intro _
    rw [hmain]
    have hlen := filterMap_khPair_length (l.zip l.tail)
    have hz := zip_tail_length l
    omega

/-- C5 witness: on the two sample stations the single pair yields
`(x, y) = (5, 0.71)`, and a duplicated station drops exactly one pair. -/
theorem kh_adjacent_pair_semantics_witness :
    khPair ({ station := 0, inPhase := 226/5, quadrature := -(25/2) },
            { station := 10, inPhase := 523/10, quadrature := -(79/5) }) =
      some { x := 5, y := 71/100 }
    ∧ (calculateKarousHjelt
        [{ station := 0, inPhase := 1, quadrature := 0 },
         { station := 10, inPhase := 2, quadrature := 0 },
         { station := 10, inPhase := 3, quadrature := 0 }]).length = 1 := by
  constructor
  · have h := (kh_adjacent_pair_semantics []).2.2.1
      { station := 0, inPhase := 226/5, quadrature := -(25/2) }
      { station := 10, inPhase := 523/10, quadrature := -(79/5) } (by norm_num)
    rw [h]
    decide
  · have h := (kh_adjacent_pair_semantics
        [{ station := 0, inPhase := 1, quadrature := 0 },
         { station := 10, inPhase := 2, quadrature := 0 },
         { station := 10, inPhase := 3, quadrature := 0 }]).2.2.2 (by decide)
    rw [h]
    decide

/-- C8: fewer than two VLF records produce the empty output (the function
is total, so no error is possible). -/
theorem kh_short_input_empty (l : List VLFRecord) (h : l.length < 2) :
    calculateKarousHjelt l = [] := by
  unfold calculateKarousHjelt
  rw [if_pos h]

/-- C8 witness: the singleton input. -/
theorem kh_short_input_empty_witness :
    calculateKarousHjelt [{ station := 0, inPhase := 226/5, quadrature := -(25/2) }] = [] :=
  kh_short_input_empty _ (by decide)

/-- C10: the Karous-Hjelt output never depends on the quadrature column:
inputs agreeing pointwise on station and in-phase give identical outputs. -/
theorem kh_quadrature_noninterference (l1 l2 : List VLFRecord)
    (h : l1.map (fun r => (r.station, r.inPhase)) = l2.map (fun r => (r.station, r.inPhase))) :
    calculateKarousHjelt l1 = calculateKarousHjelt l2 := by
  have hlen : l1.length = l2.length := by
    have hc := congrArg List.length h
    simpa using hc
  by_cases hl : l2.length < 2
  · unfold calculateKarousHjelt
    rw [if_pos (by omega), if_pos hl]
  · unfold calculateKarousHjelt
    rw [if_neg (by omega), if_neg hl, pushLoop_eq_filterMap, pushLoop_eq_filterMap]
    exact filterMap_khPair_congr l1 l2 h

/-- C10 witness: two runs whose quadrature columns differ arbitrarily. -/
theorem kh_quadrature_noninterference_witness :
    calculateKarousHjelt
      [{ station := 0, inPhase := 1, quadrature := 5 },
       { station := 10, inPhase := 2, quadrature := -7 }] =
    calculateKarousHjelt
      [{ station := 0, inPhase := 1, quadrature := 99 },
       { station := 10, inPhase := 2, quadrature := 3 }] :=
  kh_quadrature_noninterference _ _ (by decide)

/-- C9: the truthiness presence check makes `calculateGeometricFactor`
return null as soon as any of the four positions is the number `0`,
whatever the array type. -/
theorem geoFactor_zero_position_null (arrayType : String) (p : Pos4)
    (h : p.p1 = JSNum.num 0 ∨ p.p2 = JSNum.num 0 ∨ p.p3 = JSNum.num 0 ∨ p.p4 = JSNum.num 0) :
    calculateGeometricFactor arrayType p = none := by
  unfold calculateGeometricFactor
  have hf : (JSNum.jsFalsy p.p1 || JSNum.jsFalsy p.p2 ||
      JSNum.jsFalsy p.p3 || JSNum.jsFalsy p.p4) = true := by
    rcases h with h | h | h | h <;> simp [JSNum.jsFalsy, h]
  rw [if_pos hf]

/-- C9 witness: a dipole quadruple whose second electrode sits at the
origin. -/
theorem geoFactor_zero_position_null_witness :
    calculateGeometricFactor "dipole"
      { p1 := JSNum.num 5, p2 := JSNum.num 0, p3 := JSNum.num 7, p4 := JSNum.num 9 } = none :=
  geoFactor_zero_position_null "dipole" _ (Or.inr (Or.inl rfl))

/-- C1, the code at the failing input: on the Wenner quadruple
`[0, 10, 20, 30]` the calculator returns null instead of the documented
`2 * PI * 10`, because the presence check `!p1` is a truthiness test and
the position `0` is falsy. -/
theorem computeK_wenner_at_origin_evaluates_to_null :
    calculateGeometricFactor "wenner"
      { p1 := JSNum.num 0, p2 := JSNum.num 10, p3 := JSNum.num 20, p4 := JSNum.num 30 } =
      none := by decide

/-- C2 counterexample: two runs of the resistivity parser on the same
input text, differing only in the ambient interface state (the selected
array type), produce different record sequences — the parser reads the
selector through `document.getElementById`, and the record even stores the
ambient value. -/
theorem resParse_ambient_readback_counterexample :
    parseResistivityData { arrayType := "wenner", karousHjeltChecked := false }
      "1 2 3 4 5 6" ≠
    parseResistivityData { arrayType := "schlumberger", karousHjeltChecked := false }
      "1 2 3 4 5 6" := by decide

/-- C2 amended: the resistivity parser does read ambient interface state,
but only the selected array type; two runs agreeing on the input text and
the selected array type yield identical record sequences whatever the rest
of the ambient state (such as the filter toggle). -/
theorem resParse_depends_only_on_arrayType (ui1 ui2 : UIState) (text : String)
    (h : ui1.arrayType = ui2.arrayType) :
    parseResistivityData ui1 text = parseResistivityData ui2 text := by
  unfold parseResistivityData
  rw [h]

/-- C2 amended witness: runs differing only in the filter toggle agree. -/
theorem resParse_depends_only_on_arrayType_witness :
    parseResistivityData { arrayType := "wenner", karousHjeltChecked := true }
      "1 2 3 4 5 6" =
    parseResistivityData { arrayType := "wenner", karousHjeltChecked := false }
      "1 2 3 4 5 6" :=
  resParse_depends_only_on_arrayType _ _ _ rfl

/-- C4: the Apparent-Resistivity Resolver keeps a finite supplied value
(not flagged as calculated), falls back to `K * R` flagged as calculated
when the supplied value is non-finite but `K` and `R` are finite, and
fails (the row is skipped, no exception) otherwise; accordingly every
parsed record flagged as calculated carries exactly `K * R`. -/
theorem resolveRho_contract :
    (∀ K R s : JSNum, s.isFinite = true → resolveRho K R s = some (s, false))
    ∧ (∀ K R s : JSNum, s.isFinite = false → K.isFinite = true → R.isFinite = true →
        resolveRho K R s = some (JSNum.jmul K R, true))
    ∧ (∀ K R s : JSNum, s.isFinite = false → (K.isFinite && R.isFinite) = false →
        resolveRho K R s = none)
    ∧ (∀ (ui : UIState) (text : String) (r : ResistivityRecord),
        r ∈ parseResistivityData ui text → r.isCalculated = true →
        r.apparentResistivity = JSNum.jmul r.kFactor r.resistance) := by
  refine ⟨?_, ?_, ?_, ?_⟩
  · intro K R s hs
    simp [resolveRho, hs]
  · intro K R s hs hK hR
    simp [resolveRho, hs, hK, hR]
  · intro K R s hs hKR
    simp [resolveRho, hs, hKR]
  · intro ui text r hr hc
    unfold parseResistivityData at hr
    rw [pushLoop_eq_filterMap] at hr
    obtain ⟨l, -, hl⟩ := List.mem_filterMap.mp hr
    obtain ⟨-, -, -, -, -, -, -, -, -, -, -, -, -, hcalc⟩ := parseResLine_some_facts _ _ _ hl
    exact hcalc hc

/-- C4 witness: the three resolver outcomes at concrete inputs, and the
calculated record of the row `1 2 3 4 5 6` carrying `K * R`. -/
theorem resolveRho_contract_witness :
    resolveRho (JSNum.num 5) (JSNum.num 6) (JSNum.num 7) = some (JSNum.num 7, false)
    ∧ resolveRho (JSNum.num 5) (JSNum.num 6) JSNum.nan =
        some (JSNum.jmul (JSNum.num 5) (JSNum.num 6), true)
    ∧ resolveRho JSNum.pinf (JSNum.num 6) JSNum.nan = none
    ∧ ({ arrayType := "wenner",
         positions := { p1 := JSNum.num 1, p2 := JSNum.num 2,
                        p3 := JSNum.num 3, p4 := JSNum.num 4 },
         spacing := JSNum.num 1, midpoint := JSNum.num (5/2),
         depth := JSNum.num (519/1000),
         kFactor := JSNum.num 5, resistance := JSNum.num 6,
         apparentResistivity := JSNum.num 30,
         isCalculated := true } : ResistivityRecord).apparentResistivity =
        JSNum.jmul (JSNum.num 5) (JSNum.num 6) :=
  ⟨resolveRho_contract.1 (JSNum.num 5) (JSNum.num 6) (JSNum.num 7) (by decide),
   resolveRho_contract.2.1 (JSNum.num 5) (JSNum.num 6) JSNum.nan
     (by decide) (by decide) (by decide),
   resolveRho_contract.2.2.1 JSNum.pinf (JSNum.num 6) JSNum.nan (by decide) (by decide),
   resolveRho_contract.2.2.2 { arrayType := "wenner", karousHjeltChecked := false }
     "1 2 3 4 5 6" _ (by decide) (by decide)⟩

/-- C6: every record the resistivity parser emits satisfies the data-model
invariants: the spacing is the stored absolute first-dipole difference and
is strictly positive, the midpoint is the mean of the outer positions, the
depth is `spacing * 0.519`, the apparent resistivity is finite, and the
geometric factor is finite and nonzero. -/
theorem resistivity_record_invariants (ui : UIState) (text : String)
    (r : ResistivityRecord) (h : r ∈ parseResistivityData ui text) :
    r.spacing = JSNum.jabs (JSNum.jsub r.positions.p2 r.positions.p1)
    ∧ JSNum.jltB (JSNum.num 0) r.spacing = true
    ∧ r.midpoint = JSNum.jdiv (JSNum.jadd r.positions.p1 r.positions.p4) (JSNum.num 2)
    ∧ r.depth = JSNum.jmul r.spacing (JSNum.num (519 / 1000))
    ∧ r.apparentResistivity.isFinite = true
    ∧ r.kFactor.isFinite = true
    ∧ r.kFactor ≠ JSNum.num 0 := by
  unfold parseResistivityData at h
  rw [pushLoop_eq_filterMap] at h
  obtain ⟨l, -, hl⟩ := List.mem_filterMap.mp h
  obtain ⟨-, hspEq, hsp, h1, h2, h3, h4, hmidEq, hdepth, hmid, hrho, hkf, hkne, -⟩ :=
    parseResLine_some_facts _ _ _ hl
  exact ⟨hspEq, spacing_strict_pos r hspEq hsp h1 h2 h4 hmidEq hmid,
    hmidEq, hdepth, hrho, hkf, hkne⟩

/-- C6 witness: the record of the row `1 2 3 4 5 6` has strictly positive
spacing. -/
theorem resistivity_record_invariants_witness :
    JSNum.jltB (JSNum.num 0)
      ({ arrayType := "wenner",
         positions := { p1 := JSNum.num 1, p2 := JSNum.num 2,
                        p3 := JSNum.num 3, p4 := JSNum.num 4 },
         spacing := JSNum.num 1, midpoint := JSNum.num (5/2),
         depth := JSNum.num (519/1000),
         kFactor := JSNum.num 5, resistance := JSNum.num 6,
         apparentResistivity := JSNum.num 30,
         isCalculated := true } : ResistivityRecord).spacing = true :=
  (resistivity_record_invariants { arrayType := "wenner", karousHjeltChecked := false }
    "1 2 3 4 5 6" _ (by decide)).2.1

/-- C3: the VLF parser is a single ordered pass emitting at most one
record per line; header-matching lines (containing `station` or `inphase`
in any case) are always dropped; a line whose first three fields parse to
finite numbers yields exactly the record of those three values; and a line
whose third field does not parse to a finite number is dropped. -/
theorem parseVLF_line_contract (text : String) :
    parseVLFData text = (vlfLines text).filterMap parseVLFLine
    ∧ (∀ l : List Char,
        (containsSub "station".data (toLowerL l) ||
          containsSub "inphase".data (toLowerL l)) = true →
        parseVLFLine l = none)
    ∧ (∀ (l s i q : List Char) (rest : List (List Char)) (sv iv qv : ℚ),
        (containsSub "station".data (toLowerL l) ||
          containsSub "inphase".data (toLowerL l)) = false →
        ((splitWhen isSepChar l).map jsTrimL).filter (· ≠ []) = s :: i :: q :: rest →
        jsParseFloat s = JSNum.num sv → jsParseFloat i = JSNum.num iv →
        jsParseFloat q = JSNum.num qv →
        parseVLFLine l = some { station := sv, inPhase := iv, quadrature := qv })
    ∧ (∀ (l s i q : List Char) (rest : List (List Char)),
        ((splitWhen isSepChar l).map jsTrimL).filter (· ≠ []) = s :: i :: q :: rest →
        (jsParseFloat q).isFinite = false →
        parseVLFLine l = none) := by
  refine ⟨pushLoop_eq_filterMap _ _, ?_, ?_, ?_⟩
  · intro l hl
    unfold parseVLFLine
    rw [if_pos hl]
  · intro l s i q rest sv iv qv hl hsplit hs hi hq
    unfold parseVLFLine
    rw [if_neg (by simp [hl]), hsplit]
    dsimp only
    rw [hs, hi, hq]
    simp [JSNum.isFinite, JSNum.toQ]
  · intro l s i q rest hsplit hq
    unfold parseVLFLine
    split
    · rfl
    · rw [hsplit]
      dsimp only
      simp [hq]

/-- C3 witness: a numeric line, a header line, and a line with a
non-finite third field, at concrete inputs. -/
theorem parseVLF_line_contract_witness :
    parseVLFData "0\t45.2\t-12.5" = (vlfLines "0\t45.2\t-12.5").filterMap parseVLFLine
    ∧ parseVLFLine "Station(m), InPhase, Quadrature".data = none
    ∧ parseVLFLine "10 52.3 -15.8".data =
        some { station := 10, inPhase := 523/10, quadrature := -(79/5) }
    ∧ parseVLFLine "10 52.3 abc".data = none := by
  refine ⟨(parseVLF_line_contract "0\t45.2\t-12.5").1, ?_, ?_, ?_⟩
  · exact (parseVLF_line_contract "").2.1 _ (by decide)
  · exact (parseVLF_line_contract "").2.2.1 "10 52.3 -15.8".data
      "10".data "52.3".data "-15.8".data [] 10 (523/10) (-(79/5))
      (by decide) (by decide) (by decide) (by decide) (by decide)
  · exact (parseVLF_line_contract "").2.2.2 "10 52.3 abc".data
      "10".data "52.3".data "abc".data [] (by decide) (by decide)

/-- Appending to a bucket and looking a key up commute as expected. -/
theorem groupLookup_groupAppend (k k0 : SpacKey) (d : ResistivityRecord)
    (m : List (SpacKey × List ResistivityRecord)) :
    groupLookup k (groupAppend k0 d m) =
      if k0 = k then groupLookup k m ++ [d] else groupLookup k m := by
  induction m with
  | nil => by_cases h : k0 = k <;> simp [groupAppend, groupLookup, h]
  | cons kv rest ih =>
      obtain ⟨k1, l1⟩ := kv
      by_cases h1 : k1 = k0
      · subst h1
        by_cases h2 : k1 = k <;> simp [groupAppend, groupLookup, h2]
      · by_cases h2 : k1 = k
        · subst h2
          have hne : k0 ≠ k1 := fun he => h1 he.symm
          simp [groupAppend, groupLookup, h1, hne]
        · simp [groupAppend, groupLookup, h1, h2, ih]

/-- Looking up a key in the grouping fold returns exactly the records with
that key, in input order. -/
theorem groupLookup_foldl (data : List ResistivityRecord) : ∀
    (m : List (SpacKey × List ResistivityRecord)) (k : SpacKey),
    groupLookup k (data.foldl (fun m d => groupAppend (toFixed2Key d.spacing) d m) m) =
      groupLookup k m ++ data.filter (fun d => decide (toFixed2Key d.spacing = k)) := by
  induction data with
  | nil => intro m k; simp
  | cons d t ih =>
      intro m k
      simp only [List.foldl_cons, List.filter_cons]
      rw [ih]
      rw [groupLookup_groupAppend]
      by_cases h : toFixed2Key d.spacing = k <;> simp [h, List.append_assoc]

/-- The bucket of a key in the built grouping is the ordered filter of the
input by that key. -/
theorem groupLookup_buildGroups (data : List ResistivityRecord) (k : SpacKey) :
    groupLookup k (buildGroups data) =
      data.filter (fun d => decide (toFixed2Key d.spacing = k)) := by
  unfold buildGroups
  rw [groupLookup_foldl]
  simp [groupLookup]

/-- Appending either reuses an existing key or adds the new key at the
end, as a plain object does. -/
theorem keys_groupAppend (k0 : SpacKey) (d : ResistivityRecord)
    (m : List (SpacKey × List ResistivityRecord)) :
    (groupAppend k0 d m).map Prod.fst =
      if k0 ∈ m.map Prod.fst then m.map Prod.fst else m.map Prod.fst ++ [k0] := by
  induction m with
  | nil => simp [groupAppend]
  | cons kv rest ih =>
      obtain ⟨k1, l1⟩ := kv
      by_cases h1 : k1 = k0
      · subst h1
        simp [groupAppend]
      · have h1s : k0 ≠ k1 := fun he => h1 he.symm
        by_cases h2 : k0 ∈ rest.map Prod.fst <;>
          simp [groupAppend, h1, h1s, h2, ih]

/-- Key membership after an append. -/
theorem mem_keys_groupAppend (k k0 : SpacKey) (d : ResistivityRecord)
    (m : List (SpacKey × List ResistivityRecord)) :
    k ∈ (groupAppend k0 d m).map Prod.fst ↔ k ∈ m.map Prod.fst ∨ k = k0 := by
  rw [keys_groupAppend]
  by_cases h : k0 ∈ m.map Prod.fst
  · simp only [if_pos h]
    constructor
    · exact fun hk => Or.inl hk
    · rintro (hk | rfl)
      · exact hk
      · exact h
  · simp [if_neg h]

/-- Appends keep the key list duplicate-free. -/
theorem nodup_keys_groupAppend (k0 : SpacKey) (d : ResistivityRecord)
    (m : List (SpacKey × List ResistivityRecord))
    (h : (m.map Prod.fst).Nodup) :
    ((groupAppend k0 d m).map Prod.fst).Nodup := by
  rw [keys_groupAppend]
  by_cases hm : k0 ∈ m.map Prod.fst
  · simpa [if_pos hm] using h
  · simp [if_neg hm, List.nodup_append, h, hm]

/-- Keys survive the rest of the grouping fold. -/
theorem mem_keys_foldl_of_mem (data : List ResistivityRecord) : ∀
    (m : List (SpacKey × List ResistivityRecord)) (k : SpacKey),
    k ∈ m.map Prod.fst →
    k ∈ ((data.foldl (fun m d => groupAppend (toFixed2Key d.spacing) d m) m).map Prod.fst) := by
  induction data with
  | nil => intro m k hk; simpa using hk
  | cons d t ih =>
      intro m k hk
      simp only [List.foldl_cons]
      exact ih _ _ ((mem_keys_groupAppend _ _ _ _).mpr (Or.inl hk))

/-- Every input record contributes its key to the grouping fold. -/
theorem key_mem_keys_foldl (data : List ResistivityRecord) : ∀
    (m : List (SpacKey × List ResistivityRecord)) (r : ResistivityRecord),
    r ∈ data →
    toFixed2Key r.spacing ∈
      ((data.foldl (fun m d => groupAppend (toFixed2Key d.spacing) d m) m).map Prod.fst) := by
  induction data with
  | nil => intro m r hr; cases hr
  | cons d t ih =>
      intro m r hr
      simp only [List.foldl_cons]
      rcases List.mem_cons.mp hr with rfl | hr
      · exact mem_keys_foldl_of_mem t _ _ ((mem_keys_groupAppend _ _ _ _).mpr (Or.inr rfl))
      · exact ih _ _ hr

/-- Every key of the grouping fold is either an initial key or the key of
some input record. -/
theorem keys_foldl_sound (data : List ResistivityRecord) : ∀
    (m : List (SpacKey × List ResistivityRecord)) (k : SpacKey),
    k ∈ ((data.foldl (fun m d => groupAppend (toFixed2Key d.spacing) d m) m).map Prod.fst) →
    k ∈ m.map Prod.fst ∨ ∃ r ∈ data, toFixed2Key r.spacing = k := by
  induction data with
  | nil => intro m k hk; exact Or.inl (by simpa using hk)
  | cons d t ih =>
      intro m k hk
      simp only [List.foldl_cons] at hk
      rcases ih _ _ hk with hk2 | ⟨r, hr, hrk⟩
      · rcases (mem_keys_groupAppend _ _ _ _).mp hk2 with hk3 | rfl
        · exact Or.inl hk3
        · exact Or.inr ⟨d, List.mem_cons_self _ _, rfl⟩
      · exact Or.inr ⟨r, List.mem_cons_of_mem _ hr, hrk⟩

/-- The key list of the grouping fold stays duplicate-free. -/
theorem nodup_keys_foldl (data : List ResistivityRecord) : ∀
    (m : List (SpacKey × List ResistivityRecord)),
    (m.map Prod.fst).Nodup →
    (((data.foldl (fun m d => groupAppend (toFixed2Key d.spacing) d m) m)).map Prod.fst).Nodup := by
  induction data with
  | nil => intro m h; simpa using h
  | cons d t ih =>
      intro m h
      simp only [List.foldl_cons]
      exact ih _ (nodup_keys_groupAppend _ _ _ h)

/-- A strictly positive spacing produces a good key. -/
theorem goodKey_of_pos (x : JSNum) (h : JSNum.jltB (JSNum.num 0) x = true) :
    goodKey (toFixed2Key x) := by
  cases x with
  | nan => simp [JSNum.jltB] at h
  | ninf => simp [JSNum.jltB] at h
  | pinf => exact Or.inr rfl
  | num q =>
      simp only [JSNum.jltB, decide_eq_true_eq] at h
      refine Or.inl ⟨⌊q * 100 + 1 / 2⌋, ?_, ?_⟩
      · rw [Int.le_floor]
        push_cast
        nlinarith
      · simp [toFixed2Key, le_of_lt h]

/-- Refetching through `toFixed(2)` of the numeric key value recovers the
key. -/
theorem toFixed2Key_keyNumber (k : SpacKey) (h : goodKey k) :
    toFixed2Key (keyNumber k) = k := by
  rcases h with ⟨n, hn, rfl⟩ | rfl
  · have h100 : ((n : ℚ) / 100) * 100 = (n : ℚ) := by
      field_simp
    have hfl : ⌊(n : ℚ) + 1 / 2⌋ = n := by
      rw [add_comm, Int.floor_add_int]
      norm_num
    have hnn : (0 : ℚ) ≤ (n : ℚ) / 100 := by positivity
    simp [keyNumber, toFixed2Key, hnn, h100, hfl]
    norm_num
  · rfl

/-- The order `numLe` on two finite values is the rational order. -/
theorem numLe_num_iff (a b : ℚ) : numLe (JSNum.num a) (JSNum.num b) ↔ a ≤ b := by
  simp [numLe, jsNumOrd, Prod.Lex.le_iff]

/-- Good keys with distinct values are strictly separated by the IEEE
comparison of their numeric values. -/
theorem jltB_of_goodKeys (k1 k2 : SpacKey) (h1 : goodKey k1) (h2 : goodKey k2)
    (hle : numLe (keyNumber k1) (keyNumber k2)) (hne : k1 ≠ k2) :
    JSNum.jltB (keyNumber k1) (keyNumber k2) = true := by
  rcases h1 with ⟨n, _, rfl⟩ | rfl <;> rcases h2 with ⟨m, _, rfl⟩ | rfl
  · have hnm : (n : ℚ) / 100 ≤ (m : ℚ) / 100 := (numLe_num_iff _ _).mp hle
    have hne2 : (n : ℚ) / 100 ≠ (m : ℚ) / 100 := by
      intro he
      apply hne
      have : (n : ℚ) = (m : ℚ) := by
        field_simp at he
        exact_mod_cast he
      have : n = m := by exact_mod_cast this
      rw [this]
    simp only [keyNumber, JSNum.jltB, decide_eq_true_eq]
    exact lt_of_le_of_ne hnm hne2
  · rfl
  · simp [numLe, keyNumber, jsNumOrd, Prod.Lex.le_iff] at hle
  · exact absurd rfl hne

/-- Good keys are recovered from their numeric values. -/
theorem keyNumber_inj_on_good (k1 k2 : SpacKey) (h1 : goodKey k1) (h2 : goodKey k2)
    (he : keyNumber k1 = keyNumber k2) : k1 = k2 := by
  rcases h1 with ⟨n, _, rfl⟩ | rfl <;> rcases h2 with ⟨m, _, rfl⟩ | rfl
  · simp only [keyNumber, JSNum.num.injEq] at he
    have : (n : ℚ) = (m : ℚ) := by
      field_simp at he
      exact_mod_cast he
    have : n = m := by exact_mod_cast this
    rw [this]
  · simp [keyNumber] at he
  · simp [keyNumber] at he
  · rfl

/-- On NaN-free values the artificial total order implies the IEEE
less-or-equal. -/
theorem jleB_of_numLe (x y : JSNum) (hx : x.isNaN = false) (hy : y.isNaN = false)
    (h : numLe x y) : JSNum.jleB x y = true := by
  cases x <;> cases y <;>
    simp_all [JSNum.isNaN, JSNum.jleB, numLe, jsNumOrd, Prod.Lex.le_iff]

/-- C7: over well-formed records (strictly positive spacing, NaN-free
midpoints), the Series Grouper buckets the records by their spacing
rounded to two decimals (so `10.001` and `10.004` share the key `10.00`),
sorts every bucket ascending by midpoint, and emits the groups in strictly
ascending numeric-spacing order. -/
theorem groupBySpacing_contract (data : List ResistivityRecord)
    (hpos : ∀ r ∈ data, JSNum.jltB (JSNum.num 0) r.spacing = true)
    (hmid : ∀ r ∈ data, r.midpoint.isNaN = false) :
    (∀ g ∈ groupBySpacing data,
        g.points.Perm
          (data.filter (fun r => decide (toFixed2Key r.spacing = toFixed2Key g.spacing)))
        ∧ g.points.Pairwise (fun p q => JSNum.jleB p.midpoint q.midpoint = true))
    ∧ (∀ r ∈ data, ∃ g ∈ groupBySpacing data, r ∈ g.points)
    ∧ List.Chain' (fun a b => JSNum.jltB a b = true)
        ((groupBySpacing data).map (fun g => g.spacing))
    ∧ toFixed2Key (JSNum.num (10001 / 1000)) = SpacKey.fin 1000
    ∧ toFixed2Key (JSNum.num (10004 / 1000)) = SpacKey.fin 1000 := by
  have hkeysGood : ∀ k ∈ (buildGroups data).map Prod.fst, goodKey k := by
    intro k hk
    rcases keys_foldl_sound data [] k (by simpa [buildGroups] using hk) with h0 | ⟨r, hr, hrk⟩
    · simp at h0
    · exact hrk ▸ goodKey_of_pos _ (hpos r hr)
  have hkeysNodup : ((buildGroups data).map Prod.fst).Nodup :=
    nodup_keys_foldl data [] (by simp)
  have hnums : (buildGroups data).map (fun kv => keyNumber kv.1) =
      ((buildGroups data).map Prod.fst).map keyNumber := by
    simp [List.map_map]
  have hnumsGood : ∀ v ∈ (buildGroups data).map (fun kv => keyNumber kv.1),
      ∃ k, k ∈ (buildGroups data).map Prod.fst ∧ goodKey k ∧ v = keyNumber k := by
    intro v hv
    rw [hnums] at hv
    obtain ⟨k, hk, rfl⟩ := List.mem_map.mp hv
    exact ⟨k, hk, hkeysGood k hk, rfl⟩
  have hnumsNodup : ((buildGroups data).map (fun kv => keyNumber kv.1)).Nodup := by
    rw [hnums]
    exact List.Nodup.map_on
      (fun k1 h1 k2 h2 he => keyNumber_inj_on_good k1 k2 (hkeysGood k1 h1) (hkeysGood k2 h2) he)
      hkeysNodup
  refine ⟨?_, ?_, ?_, by decide, by decide⟩
  · intro g hg
    unfold groupBySpacing at hg
    obtain ⟨v, hv, rfl⟩ := List.mem_map.mp hg
    obtain ⟨k, hk, hkGood, rfl⟩ := hnumsGood v (by simpa using hv)
    have hround : toFixed2Key (keyNumber k) = k := toFixed2Key_keyNumber k hkGood
    constructor
    · dsimp only
      rw [hround, groupLookup_buildGroups]
      exact List.perm_insertionSort midLe _
    · dsimp only
      have hsorted := List.sorted_insertionSort midLe
        (groupLookup (toFixed2Key (keyNumber k)) (buildGroups data))
      have hmem : ∀ p ∈ List.insertionSort midLe
          (groupLookup (toFixed2Key (keyNumber k)) (buildGroups data)), p ∈ data := by
        intro p hp
        rw [List.mem_insertionSort, hround, groupLookup_buildGroups] at hp
        exact (List.mem_filter.mp hp).1
      exact List.Pairwise.imp_of_mem
        (fun {p q} hp hq hpq =>
          jleB_of_numLe _ _ (hmid p (hmem p hp)) (hmid q (hmem q hq)) hpq)
        hsorted
  · intro r hr
    have hk : toFixed2Key r.spacing ∈ (buildGroups data).map Prod.fst :=
      key_mem_keys_foldl data [] r hr
    have hkGood : goodKey (toFixed2Key r.spacing) := hkeysGood _ hk
    have hv : keyNumber (toFixed2Key r.spacing) ∈
        (buildGroups data).map (fun kv => keyNumber kv.1) := by
      rw [hnums]
      exact List.mem_map_of_mem _ hk
    have hvs : keyNumber (toFixed2Key r.spacing) ∈
        List.insertionSort numLe ((buildGroups data).map (fun kv => keyNumber kv.1)) := by
      rw [List.mem_insertionSort]
      exact hv
    have hgmem := List.mem_map_of_mem
      (fun v => ({ spacing := v
                   points := List.insertionSort midLe (groupLookup (toFixed2Key v) (buildGroups data))
                   measured := ((List.insertionSort midLe (groupLookup (toFixed2Key v)
                       (buildGroups data))).filter (fun p => !p.isCalculated)).map
                     (fun p => (p.midpoint, p.apparentResistivity))
                   calculated := ((List.insertionSort midLe (groupLookup (toFixed2Key v)
                       (buildGroups data))).filter (fun p => p.isCalculated)).map
                     (fun p => (p.midpoint, p.apparentResistivity)) } : SeriesGroup)) hvs
    refine ⟨{ spacing := keyNumber (toFixed2Key r.spacing)
              points := List.insertionSort midLe
                (groupLookup (toFixed2Key (keyNumber (toFixed2Key r.spacing))) (buildGroups data))
              measured := ((List.insertionSort midLe
                  (groupLookup (toFixed2Key (keyNumber (toFixed2Key r.spacing)))
                    (buildGroups data))).filter (fun p => !p.isCalculated)).map
                (fun p => (p.midpoint, p.apparentResistivity))
              calculated := ((List.insertionSort midLe
                  (groupLookup (toFixed2Key (keyNumber (toFixed2Key r.spacing)))
                    (buildGroups data))).filter (fun p => p.isCalculated)).map
                (fun p => (p.midpoint, p.apparentResistivity)) }, ?_, ?_⟩
    · exact hgmem
    · dsimp only
      rw [toFixed2Key_keyNumber _ hkGood, groupLookup_buildGroups, List.mem_insertionSort]
      exact List.mem_filter.mpr ⟨hr, by simp⟩
  · have hspac : (groupBySpacing data).map (fun g => g.spacing) =
        List.insertionSort numLe ((buildGroups data).map (fun kv => keyNumber kv.1)) := by
      unfold groupBySpacing
      rw [List.map_map]
      exact List.map_id _
    rw [hspac]
    have hsorted : List.Pairwise numLe
        (List.insertionSort numLe ((buildGroups data).map (fun kv => keyNumber kv.1))) :=
      List.sorted_insertionSort numLe _
    have hnodup : (List.insertionSort numLe
        ((buildGroups data).map (fun kv => keyNumber kv.1))).Nodup :=
      ((List.perm_insertionSort numLe _).nodup_iff).mpr hnumsNodup
    have hpair := List.Pairwise.and hsorted hnodup
    refine List.Pairwise.chain' (List.Pairwise.imp_of_mem ?_ hpair)
    intro a b ha hb hab
    rw [List.mem_insertionSort] at ha hb
    obtain ⟨k1, hk1, hg1, rfl⟩ := hnumsGood a ha
    obtain ⟨k2, hk2, hg2, rfl⟩ := hnumsGood b hb
    exact jltB_of_goodKeys k1 k2 hg1 hg2 hab.1
      (fun he => hab.2 (congrArg keyNumber he))

/-- C7 witness: on three concrete records the emitted spacings are
strictly ascending, and the spacings `10.001` and `10.004` round to the
same bucket key. -/
theorem groupBySpacing_contract_witness :
    List.Chain' (fun a b => JSNum.jltB a b = true)
      ((groupBySpacing
        [{ arrayType := "wenner",
           positions := { p1 := JSNum.num 1, p2 := JSNum.num 2,
                          p3 := JSNum.num 3, p4 := JSNum.num 4 },
           spacing := JSNum.num (10001/1000), midpoint := JSNum.num 5,
           depth := JSNum.num 1, kFactor := JSNum.num 1, resistance := JSNum.num 1,
           apparentResistivity := JSNum.num 1, isCalculated := false },
         { arrayType := "wenner",
           positions := { p1 := JSNum.num 1, p2 := JSNum.num 2,
                          p3 := JSNum.num 3, p4 := JSNum.num 4 },
           spacing := JSNum.num 1, midpoint := JSNum.num 0,
           depth := JSNum.num 1, kFactor := JSNum.num 1, resistance := JSNum.num 1,
           apparentResistivity := JSNum.num 1, isCalculated := false },
         { arrayType := "wenner",
           positions := { p1 := JSNum.num 1, p2 := JSNum.num 2,
                          p3 := JSNum.num 3, p4 := JSNum.num 4 },
           spacing := JSNum.num (10004/1000), midpoint := JSNum.num 2,
           depth := JSNum.num 1, kFactor := JSNum.num 1, resistance := JSNum.num 1,
           apparentResistivity := JSNum.num 1, isCalculated := true }]).map
        (fun g => g.spacing))
    ∧ toFixed2Key (JSNum.num (10001/1000)) = toFixed2Key (JSNum.num (10004/1000)) := by
  have h := groupBySpacing_contract
    [{ arrayType := "wenner",
       positions := { p1 := JSNum.num 1, p2 := JSNum.num 2,
                      p3 := JSNum.num 3, p4 := JSNum.num 4 },
       spacing := JSNum.num (10001/1000), midpoint := JSNum.num 5,
       depth := JSNum.num 1, kFactor := JSNum.num 1, resistance := JSNum.num 1,
       apparentResistivity := JSNum.num 1, isCalculated := false },
     { arrayType := "wenner",
       positions := { p1 := JSNum.num 1, p2 := JSNum.num 2,
                      p3 := JSNum.num 3, p4 := JSNum.num 4 },
       spacing := JSNum.num 1, midpoint := JSNum.num 0,
       depth := JSNum.num 1, kFactor := JSNum.num 1, resistance := JSNum.num 1,
       apparentResistivity := JSNum.num 1, isCalculated := false },
     { arrayType := "wenner",
       positions := { p1 := JSNum.num 1, p2 := JSNum.num 2,
                      p3 := JSNum.num 3, p4 := JSNum.num 4 },
       spacing := JSNum.num (10004/1000), midpoint := JSNum.num 2,
       depth := JSNum.num 1, kFactor := JSNum.num 1, resistance := JSNum.num 1,
       apparentResistivity := JSNum.num 1, isCalculated := true }]
    (by decide) (by decide)
  exact ⟨h.2.2.1, h.2.2.2.1.trans h.2.2.2.2.symm⟩
